import Mathlib

set_option maxRecDepth 4000

/-!
Verification development for the codex agent session core
(`codex-rs/core/src/codex.rs`) and the plugin loader
(`codex-rs/core/src/plugins.rs`).

The Rust source is shallowly embedded: pure fragments become Lean functions,
stateful fragments become explicit state-passing functions, and external
collaborators (the model client, the sandbox executor, the safety assessor,
the approval channel, serde_json) are represented by oracle parameters or by
structured values standing for their opaque results.  Machine integers are
modelled by `Int` (i32 exit codes stay far from overflow in every claim
considered here) and `f32` durations by `ℚ`.
-/

/-! ## Data model (from `models.rs` usage in `codex.rs` and spec section 3) -/

/-- Metadata object serialized into the exec output JSON
(mirrors the local `ExecMetadata` struct inside `format_exec_output`). -/
structure ExecMetadata where
  exit_code : Int
  duration_seconds : ℚ
deriving DecidableEq

/-- Payload serialized into the exec output JSON
(mirrors the local `ExecOutput` struct inside `format_exec_output`). -/
structure ExecOutputPayload where
  output : String
  metadata : ExecMetadata
deriving DecidableEq

/-- Content of a `FunctionCallOutput`.  In the source this is always a
`String`; the exec success path stores `serde_json::to_string(ExecOutput)`.
Since serde_json is an external library, its rendering is kept abstract:
`execJson p` stands for the serialized form of `p`, while `plain s` is a
literal message string. -/
inductive OutputContent
  | plain (text : String)
  | execJson (payload : ExecOutputPayload)
deriving DecidableEq

/-- Mirrors `FunctionCallOutputPayload { content, success }`. -/
structure FunctionCallOutputPayload where
  content : OutputContent
  success : Option Bool
deriving DecidableEq

/-- Mirrors `ContentItem` (only the constructors dispatched on in
`codex.rs`; the rest collapse into `other`). -/
inductive ContentItem
  | inputText (text : String)
  | outputText (text : String)
  | other
deriving DecidableEq

/-- Mirrors `LocalShellExecAction` as destructured in `handle_response_item`. -/
structure LocalShellExecAction where
  command : List String
  workingDirectory : Option String
  timeoutMs : Option Nat
deriving DecidableEq

/-- Mirrors `LocalShellAction` (a single `Exec` variant is matched in
`handle_response_item`). -/
inductive LocalShellAction
  | exec (action : LocalShellExecAction)
deriving DecidableEq

/-- Mirrors `ResponseItem` with the fields `codex.rs` reads.  The
`localShellCall` status field is kept as an opaque string. -/
inductive ResponseItem
  | message (role : String) (content : List ContentItem)
  | reasoning (id : String) (summary : List String)
      (content : Option (List String)) (encryptedContent : Option String)
  | functionCall (name : String) (arguments : String) (callId : String)
  | localShellCall (id : Option String) (callId : Option String)
      (status : String) (action : LocalShellAction)
  | functionCallOutput (callId : String) (output : FunctionCallOutputPayload)
  | other
deriving DecidableEq

/-- Result of an MCP tool call as consumed in `run_task`.  The content
array is represented by its serde_json rendering (an external library),
matching how the source immediately serializes it. -/
structure CallToolResult where
  content : String
  isError : Option Bool
deriving DecidableEq

instance {α β : Type} [DecidableEq α] [DecidableEq β] : DecidableEq (Except α β) := fun a b =>
  match a, b with
  | .error x, .error y =>
      if h : x = y then isTrue (congrArg _ h)
      else isFalse (fun hc => h (Except.error.inj hc))
  | .ok x, .ok y =>
      if h : x = y then isTrue (congrArg _ h)
      else isFalse (fun hc => h (Except.ok.inj hc))
  | .error _, .ok _ => isFalse (fun hc => Except.noConfusion hc)
  | .ok _, .error _ => isFalse (fun hc => Except.noConfusion hc)

/-- Mirrors `ResponseInputItem` with the variants `codex.rs` constructs
and destructures. -/
inductive ResponseInputItem
  | message (role : String) (content : List ContentItem)
  | functionCallOutput (callId : String) (output : FunctionCallOutputPayload)
  | mcpToolCallOutput (callId : String) (result : Except String CallToolResult)
deriving DecidableEq

/-! ## Turn input adjustment (`try_run_turn`, codex.rs lines 1338-1398) -/

/-- Call ids that already have a response in the prompt input:
`FunctionCallOutput.call_id` plus `LocalShellCall.call_id` when present
(codex.rs lines 1344-1356). -/
def completedCallIds (input : List ResponseItem) : List String :=
  input.filterMap fun ri =>
    match ri with
    | .functionCallOutput callId _ => some callId
    | .localShellCall _ (some callId) _ _ => some callId
    | _ => none

/-- Call ids of calls appearing in the prompt input
(the first `filter_map` of the `missing_calls` computation,
codex.rs lines 1361-1372). -/
def pendingCallIds (input : List ResponseItem) : List String :=
  input.filterMap fun ri =>
    match ri with
    | .functionCall _ _ callId => some callId
    | .localShellCall _ (some callId) _ _ => some callId
    | _ => none

/-- The synthesized `FunctionCallOutput{content:"aborted", success:false}`
item for a call id. -/
def abortedOutput (callId : String) : ResponseItem :=
  .functionCallOutput callId ⟨.plain "aborted", some false⟩

/-- `missing_calls` (codex.rs lines 1361-1388): pending call ids that are
not already completed, each turned into a synthetic aborted output. -/
def missingCalls (input : List ResponseItem) : List ResponseItem :=
  ((pendingCallIds input).filter
      (fun callId => !(completedCallIds input).contains callId)).map
    abortedOutput

/-- Input actually sent on the stream (codex.rs lines 1389-1398): if any
call is missing a response, the synthetic aborted outputs are prepended,
otherwise the prompt input is used unchanged. -/
def adjustTurnInput (input : List ResponseItem) : List ResponseItem :=
  if missingCalls input = [] then input
  else missingCalls input ++ input

/-! ## Protocol types (from `protocol.rs` usage in `codex.rs`) -/

/-- Mirrors `AskForApproval` (the four variants matched in
`handle_sandbox_error`). -/
inductive AskForApproval
  | unlessTrusted
  | onFailure
  | onRequest
  | never
deriving DecidableEq

/-- Mirrors `SandboxType` (exec.rs is an external collaborator; the three
variants are taken from the spec and from `SandboxType::None` used in
`codex.rs`). -/
inductive SandboxType
  | none
  | macosSeatbelt
  | linuxSeccomp
deriving DecidableEq

/-- Rust `{:?}` rendering of `SandboxType`, used in the sandbox failure
message. -/
def SandboxType.debugRepr : SandboxType → String
  | .none => "None"
  | .macosSeatbelt => "MacosSeatbelt"
  | .linuxSeccomp => "LinuxSeccomp"

/-- Mirrors `ReviewDecision`.  A dropped approval channel is already
resolved to `denied` by the caller (`unwrap_or_default`). -/
inductive ReviewDecision
  | approved
  | approvedForSession
  | denied
  | abort
deriving DecidableEq

/-- Modelled from the spec: `SandboxErr ∈ {Timeout, Denied, Other}`
(section 6; `error.rs` is not under src).  The string payload of the
non-timeout variants stands for their `Display` rendering. -/
inductive SandboxErr
  | timeout
  | denied (message : String)
  | other (message : String)
deriving DecidableEq

/-- Display rendering of a sandbox error, abstract except that it is a
function of the error value. -/
def SandboxErr.display : SandboxErr → String
  | .timeout => "command timed out"
  | .denied m => m
  | .other m => m

/-- Executor-level error: either a sandbox error or some other `CodexErr`
represented by its `Display` rendering. -/
inductive ExecError
  | sandbox (err : SandboxErr)
  | other (message : String)
deriving DecidableEq

/-- Display rendering of an executor error. -/
def ExecError.display : ExecError → String
  | .sandbox e => e.display
  | .other m => m

/-- Mirrors `ExecToolCallOutput`; `duration` is in seconds, `f32` is
modelled by `ℚ`. -/
structure ExecToolCallOutput where
  exitCode : Int
  stdout : String
  stderr : String
  duration : ℚ
deriving DecidableEq

/-- Mirrors `ExecParams` as built by `to_exec_params`. -/
structure ExecParams where
  command : List String
  cwd : String
  timeoutMs : Option Nat
  env : List (String × String)
  withEscalatedPermissions : Option Bool
  justification : Option String
deriving DecidableEq

/-- Modelled from the spec: the default exec timeout used by
`ExecParams::timeout_duration` (`exec.rs` is not under src; the spec leaves
the default unspecified, only the claim-relevant case of an explicit
`timeout_ms` matters). -/
def defaultTimeoutMs : Nat := 10000

/-- Modelled from the spec: `params.timeout_duration().as_millis()`
(section 4.6 renders it as `<timeout_ms>`). -/
def ExecParams.timeoutDurationMillis (p : ExecParams) : Nat :=
  p.timeoutMs.getD defaultTimeoutMs

/-- Mirrors `SafetyCheck` as matched in `handle_container_exec_with_params`
(`safety.rs` is an external collaborator; the constructors are those the
source destructures). -/
inductive SafetyCheck
  | autoApprove (sandboxType : SandboxType)
  | askUser
  | reject (reason : String)
deriving DecidableEq

/-- Event payloads emitted by the session, restricted to the fields the
claims are about. -/
inductive EventMsg
  | error (message : String)
  | taskStarted
  | taskComplete (lastAgentMessage : Option String)
  | agentMessage (message : String)
  | execApprovalRequest (callId : String) (command : List String) (reason : Option String)
  | execCommandBegin (callId : String) (command : List String)
  | execCommandEnd (callId : String) (stdout stderr : String) (exitCode : Int) (duration : ℚ)
  | patchApplyBegin (callId : String)
  | patchApplyEnd (callId : String) (stdout stderr : String) (success : Bool)
  | backgroundEvent (message : String)
  | turnDiff (unifiedDiff : String)
deriving DecidableEq

/-- Whether an event is an exec/patch begin event. -/
def EventMsg.isBegin : EventMsg → Bool
  | .execCommandBegin _ _ => true
  | .patchApplyBegin _ => true
  | _ => false

/-- Mirrors `Event { id, msg }`. -/
structure Event where
  id : String
  msg : EventMsg
deriving DecidableEq

/-! ## Exec output formatting (`format_exec_output`, codex.rs lines 2164-2191) -/

/-- Rounding to one decimal place:
`(x * 10.0).round() / 10.0` from the source, with `f32` modelled by `ℚ`
(durations are nonnegative, where Rust round-half-away-from-zero and
Mathlib round-half-up agree). -/
def roundTenth (q : ℚ) : ℚ := (round (q * 10) : ℤ) / 10

/-- `format_exec_output`: builds the payload that is serde_json-serialized
into the `FunctionCallOutput` content. -/
def formatExecOutput (output : String) (exitCode : Int) (duration : ℚ) : ExecOutputPayload :=
  { output := output
    metadata := { exit_code := exitCode, duration_seconds := roundTenth duration } }

/-- Abstract JSON values, used to state what the serialized exec output
payload contains. -/
inductive Json
  | str (s : String)
  | int (n : Int)
  | num (q : ℚ)
  | bool (b : Bool)
  | obj (fields : List (String × Json))
  | arr (items : List Json)

/-- Serde serialization shape of `ExecOutput`: an object with exactly the
keys `output` and `metadata`, the latter an object with exactly the keys
`exit_code` and `duration_seconds` (field order follows the struct
declarations). -/
def ExecOutputPayload.toJson (p : ExecOutputPayload) : Json :=
  .obj [("output", .str p.output),
        ("metadata", .obj [("exit_code", .int p.metadata.exit_code),
                           ("duration_seconds", .num p.metadata.duration_seconds)])]

/-- The success-path `FunctionCallOutput` (codex.rs lines 1977-1998):
content is the serialized `format_exec_output` of the chosen stream,
success is `exit_code == 0`. -/
def execSuccessOutput (out : ExecToolCallOutput) : FunctionCallOutputPayload :=
  { content := .execJson (formatExecOutput
      (if out.exitCode == 0 then out.stdout else out.stderr) out.exitCode out.duration)
    success := some (out.exitCode == 0) }

/-! ## Exec event emission (`on_exec_command_end`, codex.rs lines 416-473) -/

/-- `MAX_STREAM_OUTPUT = 5 * 1024` (codex.rs line 433). -/
def MAX_STREAM_OUTPUT : Nat := 5 * 1024

/-- `stdout.chars().take(MAX_STREAM_OUTPUT).collect()`: truncation to the
first 5 KiB counted in Unicode scalar values. -/
def truncateStream (s : String) : String :=
  ⟨s.data.take MAX_STREAM_OUTPUT⟩

/-- `on_exec_command_end`: the end event (patch or exec) with truncated
streams, followed for apply-patch by a `TurnDiff` event when the turn diff
tracker (an external collaborator, passed as `diff`) reports a diff. -/
def onExecCommandEnd (isApplyPatch : Bool) (callId : String)
    (out : ExecToolCallOutput) (diff : Option String) : List EventMsg :=
  let stdout := truncateStream out.stdout
  let stderr := truncateStream out.stderr
  let endMsg :=
    if isApplyPatch then EventMsg.patchApplyEnd callId stdout stderr (out.exitCode == 0)
    else EventMsg.execCommandEnd callId stdout stderr out.exitCode out.duration
  endMsg ::
    (if isApplyPatch then
      (match diff with
       | some d => [EventMsg.turnDiff d]
       | none => [])
    else [])

/-- `run_exec_with_events` (codex.rs lines 478-524): begin event, executor
invocation (its result is the oracle `result`), end event.  On executor
error the end event is built from `exit_code -1`, empty stdout and the
error's UI message as stderr. -/
def runExecWithEvents (isApplyPatch : Bool) (callId : String) (command : List String)
    (result : Except ExecError ExecToolCallOutput) (diff : Option String) : List EventMsg :=
  let beginMsg :=
    if isApplyPatch then EventMsg.patchApplyBegin callId
    else EventMsg.execCommandBegin callId command
  let borrowed :=
    match result with
    | .ok out => out
    | .error e => { exitCode := -1, stdout := "", stderr := e.display, duration := 0 }
  beginMsg :: onExecCommandEnd isApplyPatch callId borrowed diff

/-! ## Exec pipeline (`handle_container_exec_with_params` and
`handle_sandbox_error`, codex.rs lines 1798-2162) -/

/-- Observable outcome of one exec tool call: the `FunctionCallOutput`
returned to the model, the events emitted, the sandbox types of the
executor invocations actually performed, the commands inserted into
`approved_commands`, and whether the user was asked for approval. -/
structure ExecCallResult where
  output : FunctionCallOutputPayload
  events : List EventMsg
  execInvocations : List SandboxType
  addedApprovedCommands : List (List String)
  askedUser : Bool
deriving DecidableEq

/-- `handle_sandbox_error` (codex.rs lines 2021-2162).  `decision` is the
resolved answer of the escalation approval channel and `retry` the
executor oracle for the no-sandbox re-run.  Shell-profile wrapping of the
command (an external shell collaborator) is modelled as the identity. -/
def handleSandboxError (policy : AskForApproval) (params : ExecParams)
    (callId : String) (isApplyPatch : Bool) (err : SandboxErr)
    (sandboxType : SandboxType) (decision : ReviewDecision)
    (retry : Except ExecError ExecToolCallOutput) (diff : Option String) : ExecCallResult :=
  match policy with
  | .never | .onRequest =>
      { output := ⟨.plain ("failed in sandbox " ++ sandboxType.debugRepr
                    ++ " with execution error: " ++ err.display), some false⟩
        events := []
        execInvocations := []
        addedApprovedCommands := []
        askedUser := false }
  | .unlessTrusted | .onFailure =>
    match err with
    | .timeout =>
        { output := ⟨.plain ("command timed out after "
                      ++ toString params.timeoutDurationMillis ++ " milliseconds"), some false⟩
          events := []
          execInvocations := []
          addedApprovedCommands := []
          askedUser := false }
    | _ =>
      let preEvents := [EventMsg.backgroundEvent ("Execution failed: " ++ err.display),
                        EventMsg.execApprovalRequest callId params.command
                          (some "command failed; retry without sandbox?")]
      match decision with
      | .approved | .approvedForSession =>
          { output :=
              match retry with
              | .ok out => execSuccessOutput out
              | .error e => ⟨.plain ("retry failed: " ++ e.display), none⟩
            events := preEvents
              ++ [EventMsg.backgroundEvent "retrying command without sandbox"]
              ++ runExecWithEvents isApplyPatch callId params.command retry diff
            execInvocations := [SandboxType.none]
            addedApprovedCommands := [params.command]
            askedUser := true }
      | .denied | .abort =>
          { output := ⟨.plain "exec command rejected by user", none⟩
            events := preEvents
            execInvocations := []
            addedApprovedCommands := []
            askedUser := true }

/-- The run-and-report phase of `handle_container_exec_with_params`
(codex.rs lines 1941-2018), entered once a sandbox type has been decided.
`preEvents`/`preApproved`/`askedAtGate` carry what the approval gate
already produced. -/
def runExecPhase (params : ExecParams) (callId : String) (isApplyPatch : Bool)
    (sandboxType : SandboxType) (preEvents : List EventMsg)
    (preApproved : List (List String)) (askedAtGate : Bool)
    (policy : AskForApproval) (sandboxDecision : ReviewDecision)
    (execResult retry : Except ExecError ExecToolCallOutput)
    (diff : Option String) : ExecCallResult :=
  let execEvents := runExecWithEvents isApplyPatch callId params.command execResult diff
  match execResult with
  | .ok out =>
      { output := execSuccessOutput out
        events := preEvents ++ execEvents
        execInvocations := [sandboxType]
        addedApprovedCommands := preApproved
        askedUser := askedAtGate }
  | .error (.sandbox e) =>
      let sb := handleSandboxError policy params callId isApplyPatch e sandboxType
        sandboxDecision retry diff
      { output := sb.output
        events := preEvents ++ execEvents ++ sb.events
        execInvocations := sandboxType :: sb.execInvocations
        addedApprovedCommands := preApproved ++ sb.addedApprovedCommands
        askedUser := askedAtGate || sb.askedUser }
  | .error (.other m) =>
      { output := ⟨.plain ("execution error: " ++ m), none⟩
        events := preEvents ++ execEvents
        execInvocations := [sandboxType]
        addedApprovedCommands := preApproved
        askedUser := askedAtGate }

/-- `handle_container_exec_with_params` from the safety gate onward
(codex.rs lines 1897-2018).  `safety` is the result of the external safety
assessment (step 1 classification and `assess_*` are external
collaborators), `decision` the resolved gate approval answer,
`execResult`/`retry` the executor oracles and `diff` the turn diff
tracker oracle. -/
def handleContainerExecWithParams (params : ExecParams) (callId : String)
    (isApplyPatch : Bool) (safety : SafetyCheck) (decision : ReviewDecision)
    (policy : AskForApproval) (sandboxDecision : ReviewDecision)
    (execResult retry : Except ExecError ExecToolCallOutput)
    (diff : Option String) : ExecCallResult :=
  match safety with
  | .autoApprove sandboxType =>
      runExecPhase params callId isApplyPatch sandboxType [] [] false
        policy sandboxDecision execResult retry diff
  | .askUser =>
      let reqEvents := [EventMsg.execApprovalRequest callId params.command params.justification]
      match decision with
      | .approved =>
          runExecPhase params callId isApplyPatch SandboxType.none reqEvents [] true
            policy sandboxDecision execResult retry diff
      | .approvedForSession =>
          runExecPhase params callId isApplyPatch SandboxType.none reqEvents
            [params.command] true policy sandboxDecision execResult retry diff
      | .denied | .abort =>
          { output := ⟨.plain "exec command rejected by user", none⟩
            events := reqEvents
            execInvocations := []
            addedApprovedCommands := []
            askedUser := true }
  | .reject reason =>
      { output := ⟨.plain ("exec command rejected: " ++ reason), none⟩
        events := []
        execInvocations := []
        addedApprovedCommands := []
        askedUser := false }

/-! ## LocalShellCall dispatch (`handle_response_item`, codex.rs lines 1648-1689) -/

/-- Outcome of dispatching a `LocalShellCall` item: either the exec is run
under an effective call id, or an error output is returned without
executing anything. -/
inductive LocalShellDispatch
  | execute (effectiveCallId : String)
  | rejectOutput (callId : String) (output : FunctionCallOutputPayload)
deriving DecidableEq

/-- The call-id resolution of the `LocalShellCall` arm of
`handle_response_item`. -/
def dispatchLocalShellCall (callId id : Option String) : LocalShellDispatch :=
  match callId, id with
  | some c, _ => .execute c
  | none, some i => .execute i
  | none, none =>
      .rejectOutput "" ⟨.plain "LocalShellCall without call_id or id", none⟩

/-! ## Session state (`State`, `Session::abort`, `State::partial_clone`,
`AgentTask::abort`, codex.rs lines 250-258, 579-587, 625-633, 687-701) -/

/-- The session's handle on a running task: its submission id and whether
the underlying cooperative task has already finished
(`AbortHandle::is_finished`). -/
structure AgentTask where
  subId : String
  finished : Bool
deriving DecidableEq

/-- Mirrors `State`: the mutable agent state behind the session mutex.
The one-shot approval senders are modelled by opaque tokens. -/
structure SessionState where
  approvedCommands : List (List String)
  currentTask : Option AgentTask
  pendingApprovals : List (String × Nat)
  pendingInput : List ResponseInputItem
  history : List ResponseItem
deriving DecidableEq

/-- `State::partial_clone`: keeps `approved_commands` and `history`, all
other fields from `Default`. -/
def SessionState.partialClone (s : SessionState) : SessionState :=
  { approvedCommands := s.approvedCommands
    currentTask := none
    pendingApprovals := []
    pendingInput := []
    history := s.history }

/-- `AgentTask::abort`: emits the synthetic interrupt error event only if
the task has not already finished. -/
def taskAbortEvents (t : AgentTask) : List Event :=
  if t.finished then []
  else [⟨t.subId, .error " Turn interrupted"⟩]

/-- `Session::abort`: clears pending approvals and pending input, takes
the current task and aborts it.  Returns the new state and the emitted
events. -/
def sessionAbort (s : SessionState) : SessionState × List Event :=
  ({ s with pendingApprovals := [], pendingInput := [], currentTask := none },
   match s.currentTask with
   | some task => taskAbortEvents task
   | none => [])

/-- The state carried into a replacement session on `ConfigureSession`
(codex.rs lines 826-836): the old session is aborted and its state
partially cloned; with no prior session a fresh state with a new history
is used. -/
def nextSessionStateOnConfigure (old : Option SessionState) : SessionState × List Event :=
  match old with
  | some s =>
      let aborted := sessionAbort s
      (aborted.1.partialClone, aborted.2)
  | none => (⟨[], none, [], [], []⟩, [])

/-! ## run_task (codex.rs lines 1087-1263) -/

/-- Mirrors `InputItem` (protocol.rs is not under src; the spec's
`UserInput{items:[Text{...}]}` gives the `Text` variant, everything else
collapses into `other`). -/
inductive InputItem
  | text (text : String)
  | other
deriving DecidableEq

/-- Modelled from the spec: `ResponseInputItem::from(Vec<InputItem>)`
(models.rs is not under src) packages the user items as a user message. -/
def responseInputItemFromInput (input : List InputItem) : ResponseInputItem :=
  .message "user"
    (input.map fun it =>
      match it with
      | .text t => ContentItem.inputText t
      | .other => ContentItem.other)

/-- Modelled from the spec: `ResponseItem::from(ResponseInputItem)`
(models.rs is not under src) reinterprets an input item as a response
item with the same payload. -/
def ResponseInputItem.toResponseItem : ResponseInputItem → ResponseItem
  | .message role content => .message role content
  | .functionCallOutput callId output => .functionCallOutput callId output
  | .mcpToolCallOutput callId result =>
      .functionCallOutput callId
        (match result with
         | .ok r => ⟨.plain r.content, r.isError⟩
         | .error e => ⟨.plain e, some true⟩)

/-- Mirrors `ProcessedResponseItem { item, response }`. -/
structure ProcessedResponseItem where
  item : ResponseItem
  response : Option ResponseInputItem
deriving DecidableEq

/-- The MCP branch of turn-output recording (codex.rs lines 1179-1198):
the serialized content (serde_json is external, the content field already
carries its rendering) with `success` from `is_error`; an error message
with `success=Some(true)` marking failure. -/
def mcpResultToOutput (res : Except String CallToolResult) : FunctionCallOutputPayload :=
  match res with
  | .ok r => ⟨.plain r.content, r.isError⟩
  | .error e => ⟨.plain e, some true⟩

/-- The per-item recording match of `run_task` (codex.rs lines 1141-1223):
returns the items to record in conversation history and the collected
responses. -/
def processTurnOutput (output : List ProcessedResponseItem) :
    List ResponseItem × List ResponseInputItem :=
  output.foldl
    (fun acc pri =>
      let newItems : List ResponseItem :=
        match pri.item, pri.response with
        | ResponseItem.message role _, none =>
            if role = "assistant" then [pri.item] else []
        | ResponseItem.localShellCall _ _ _ _,
          some (ResponseInputItem.functionCallOutput cid out) =>
            [pri.item, ResponseItem.functionCallOutput cid out]
        | ResponseItem.functionCall _ _ _,
          some (ResponseInputItem.functionCallOutput cid out) =>
            [pri.item, ResponseItem.functionCallOutput cid out]
        | ResponseItem.functionCall _ _ _,
          some (ResponseInputItem.mcpToolCallOutput cid res) =>
            [pri.item, ResponseItem.functionCallOutput cid (mcpResultToOutput res)]
        | ResponseItem.reasoning i s c e, none =>
            [ResponseItem.reasoning i s c e]
        | _, _ => []
      let newResponses : List ResponseInputItem :=
        match pri.response with
        | some r => [r]
        | none => []
      (acc.1 ++ newItems, acc.2 ++ newResponses))
    ([], [])

/-- `get_last_assistant_message_from_turn` (codex.rs lines 2193-2205). -/
def getLastAssistantMessageFromTurn (responses : List ResponseItem) : Option String :=
  responses.reverse.findSome? fun item =>
    match item with
    | ResponseItem.message role content =>
        if role = "assistant" then
          content.reverse.findSome? fun ci =>
            match ci with
            | ContentItem.outputText text => some text
            | _ => none
        else none
    | _ => none

/-- One iteration's worth of external behavior for the `run_task` loop:
the pending input drained at its start and the `run_turn` result. -/
structure TurnStep where
  pendingInput : List ResponseInputItem
  turnResult : Except String (List ProcessedResponseItem)
deriving DecidableEq

/-- Observable outcome of a `run_task` invocation. -/
structure TaskRunResult where
  events : List Event
  recorded : List ResponseItem
  removedSelf : Bool
  oracleExhausted : Bool
deriving DecidableEq

/-- The turn loop of `run_task` (codex.rs lines 1108-1262), driven by the
oracle list `steps`; an exhausted oracle is flagged, standing for a run
cut off by cancellation. -/
def runTaskLoop (subId : String) (steps : List TurnStep) : TaskRunResult :=
  match steps with
  | [] => { events := [], recorded := [], removedSelf := false, oracleExhausted := true }
  | step :: rest =>
    let pendingItems := step.pendingInput.map ResponseInputItem.toResponseItem
    match step.turnResult with
    | .error e =>
        { events := [⟨subId, .error e⟩]
          recorded := pendingItems
          removedSelf := false
          oracleExhausted := false }
    | .ok turnOutput =>
      let processed := processTurnOutput turnOutput
      if processed.2.isEmpty then
        { events := [⟨subId, .taskComplete (getLastAssistantMessageFromTurn processed.1)⟩]
          recorded := pendingItems ++ processed.1
          removedSelf := true
          oracleExhausted := false }
      else
        let r := runTaskLoop subId rest
        { events := r.events
          recorded := pendingItems ++ processed.1 ++ r.recorded
          removedSelf := r.removedSelf
          oracleExhausted := r.oracleExhausted }

/-- `run_task` (codex.rs lines 1087-1263): empty input returns before any
event, recording or task bookkeeping; otherwise `TaskStarted` is emitted,
the initial input recorded, and the turn loop runs. -/
def runTask (subId : String) (input : List InputItem) (steps : List TurnStep) : TaskRunResult :=
  if input.isEmpty then
    { events := [], recorded := [], removedSelf := false, oracleExhausted := false }
  else
    let initialItem := (responseInputItemFromInput input).toResponseItem
    let r := runTaskLoop subId steps
    { events := ⟨subId, .taskStarted⟩ :: r.events
      recorded := initialItem :: r.recorded
      removedSelf := r.removedSelf
      oracleExhausted := r.oracleExhausted }

/-! ## Plugin loading (`plugins.rs` lines 25-71) -/

/-- Modelled from the spec: `McpServerConfig` (config/types.rs is not
under src) is an opaque parsed server configuration; the token stands for
its contents. -/
structure McpServerConfig where
  token : String
deriving DecidableEq

/-- Mirrors `LoadedPlugin`.  Paths are modelled by strings; the
`mcp_servers` hash map is modelled by its association list (keys are
unique within one plugin's map). -/
structure LoadedPlugin where
  configName : String
  manifestName : Option String
  root : String
  enabled : Bool
  skillRoots : List String
  mcpServers : List (String × McpServerConfig)
  error : Option String
deriving DecidableEq

/-- `LoadedPlugin::is_active`: `enabled && error.is_none()`. -/
def LoadedPlugin.isActive (p : LoadedPlugin) : Bool :=
  p.enabled && p.error.isNone

/-- Mirrors `PluginLoadOutcome`. -/
structure PluginLoadOutcome where
  plugins : List LoadedPlugin
deriving DecidableEq

/-- Rust `Vec::dedup`: removes consecutive duplicates. -/
def dedupConsec {α : Type} [DecidableEq α] : List α → List α
  | [] => []
  | a :: rest =>
    match rest with
    | [] => [a]
    | b :: _ => if a = b then dedupConsec rest else a :: dedupConsec rest

/-- `PluginLoadOutcome::effective_skill_roots`: the active plugins' skill
roots, flattened, sorted (`sort_unstable`, modelled by insertion sort —
the result of any correct sort of strings is unique) and deduplicated. -/
def effectiveSkillRoots (o : PluginLoadOutcome) : List String :=
  dedupConsec
    (List.insertionSort (fun a b => a ≤ b)
      ((o.plugins.filter (fun p => p.isActive)).flatMap (fun p => p.skillRoots)))

/-- `Entry::or_insert_with`: keep an existing binding for `name`, insert
otherwise. -/
def orInsert (m : List (String × McpServerConfig)) (name : String)
    (cfg : McpServerConfig) : List (String × McpServerConfig) :=
  if (m.lookup name).isSome then m else m ++ [(name, cfg)]

/-- The inner loop of `effective_mcp_servers`: fold one plugin's server
map into the accumulator with first-write-wins semantics. -/
def insertPluginServers (m : List (String × McpServerConfig))
    (entries : List (String × McpServerConfig)) : List (String × McpServerConfig) :=
  entries.foldl (fun acc e => orInsert acc e.1 e.2) m

/-- `PluginLoadOutcome::effective_mcp_servers`: fold the active plugins in
load order, `or_insert`-ing every server name. -/
def effectiveMcpServers (o : PluginLoadOutcome) : List (String × McpServerConfig) :=
  (o.plugins.filter (fun p => p.isActive)).foldl
    (fun acc p => insertPluginServers acc p.mcpServers) []

/-! ## Helper lemmas -/

theorem truncateStream_length_le (s : String) : (truncateStream s).length ≤ 5 * 1024 := by
  show (s.data.take MAX_STREAM_OUTPUT).length ≤ 5 * 1024
  exact List.length_take_le _ _

/-! ## Claim theorems -/

/-- C10: `run_task` invoked with an empty input item list returns
immediately: no `TaskStarted`, no `TaskComplete`, no other event, nothing
recorded to history or rollout, and the task does not remove itself from
the session's current-task slot. -/
theorem run_task_empty_input_noop (subId : String) (steps : List TurnStep) :
    runTask subId [] steps =
      { events := [], recorded := [], removedSelf := false, oracleExhausted := false } :=
  rfl

/-- C6: replacing the session on a subsequent `ConfigureSession` carries
over exactly the approved commands and the conversation history, while the
new state's pending approvals, pending input and current task are
empty/`None`. -/
theorem session_replacement_state_carryover (s : SessionState) :
    (nextSessionStateOnConfigure (some s)).1.approvedCommands = s.approvedCommands ∧
    (nextSessionStateOnConfigure (some s)).1.history = s.history ∧
    (nextSessionStateOnConfigure (some s)).1.pendingApprovals = [] ∧
    (nextSessionStateOnConfigure (some s)).1.pendingInput = [] ∧
    (nextSessionStateOnConfigure (some s)).1.currentTask = none :=
  ⟨rfl, rfl, rfl, rfl, rfl⟩

/-- C7: aborting a session is idempotent with respect to the interrupt
error event: with a running (unfinished) current task, the first abort
emits exactly one `Error{" Turn interrupted"}` event addressed to the
task's submission id, the second abort emits nothing, and after either one
abort or two the state has no current task, no pending approvals and no
pending input. -/
theorem session_abort_idempotent (s : SessionState) (t : AgentTask)
    (hTask : s.currentTask = some t) (hRun : t.finished = false) :
    (sessionAbort s).2 = [⟨t.subId, EventMsg.error " Turn interrupted"⟩] ∧
    (sessionAbort (sessionAbort s).1).2 = [] ∧
    (sessionAbort s).1.currentTask = none ∧
    (sessionAbort s).1.pendingApprovals = [] ∧
    (sessionAbort s).1.pendingInput = [] ∧
    (sessionAbort (sessionAbort s).1).1.currentTask = none ∧
    (sessionAbort (sessionAbort s).1).1.pendingApprovals = [] ∧
    (sessionAbort (sessionAbort s).1).1.pendingInput = [] := by
  refine ⟨?_, rfl, rfl, rfl, rfl, rfl, rfl, rfl⟩
  have h1 : (sessionAbort s).2
      = (match s.currentTask with
         | some task => taskAbortEvents task
         | none => []) := rfl
  rw [h1, hTask]
  show taskAbortEvents t = [{ id := t.subId, msg := EventMsg.error " Turn interrupted" }]
  unfold taskAbortEvents
  rw [hRun]
  rfl

theorem session_abort_idempotent_witness :
    (sessionAbort ⟨[], some ⟨"t1", false⟩, [], [], []⟩).2
      = [⟨"t1", EventMsg.error " Turn interrupted"⟩] :=
  (session_abort_idempotent ⟨[], some ⟨"t1", false⟩, [], [], []⟩ ⟨"t1", false⟩ rfl rfl).1

/-- C8: for a `LocalShellCall` item dispatched from the model stream, the
effective call id used for the execution is the first present of the
item's `call_id` and `id` fields; with neither present the handler returns
`FunctionCallOutput{call_id:"", content:"LocalShellCall without call_id or
id", success:None}` without executing anything. -/
theorem localShellCall_effective_call_id (callId id : Option String) :
    dispatchLocalShellCall callId id =
      match callId <|> id with
      | some e => LocalShellDispatch.execute e
      | none => LocalShellDispatch.rejectOutput ""
          ⟨.plain "LocalShellCall without call_id or id", none⟩ := by
  cases callId <;> cases id <;> rfl

/-- C5: every exec or patch end event carries stdout and stderr truncated
to the first `5 * 1024` Unicode scalar values of the executor's
corresponding output stream; in particular each field holds at most
5 KiB of characters. -/
theorem exec_end_event_truncation (isApplyPatch : Bool) (callId : String)
    (out : ExecToolCallOutput) (diff : Option String) :
    (∃ rest, onExecCommandEnd isApplyPatch callId out diff =
      (if isApplyPatch then
        EventMsg.patchApplyEnd callId ⟨out.stdout.data.take (5 * 1024)⟩
          ⟨out.stderr.data.take (5 * 1024)⟩ (out.exitCode == 0)
      else
        EventMsg.execCommandEnd callId ⟨out.stdout.data.take (5 * 1024)⟩
          ⟨out.stderr.data.take (5 * 1024)⟩ out.exitCode out.duration) :: rest) ∧
    truncateStream out.stdout = ⟨out.stdout.data.take (5 * 1024)⟩ ∧
    truncateStream out.stderr = ⟨out.stderr.data.take (5 * 1024)⟩ ∧
    (truncateStream out.stdout).length ≤ 5 * 1024 ∧
    (truncateStream out.stderr).length ≤ 5 * 1024 := by
  refine ⟨⟨(if isApplyPatch then
      (match diff with
       | some d => [EventMsg.turnDiff d]
       | none => [])
    else []), ?_⟩, rfl, rfl, truncateStream_length_le _, truncateStream_length_le _⟩
  cases isApplyPatch <;> rfl

/-- C4: on the success path of an exec tool call, the returned
`FunctionCallOutput` has `success = (exit_code == 0)` and its content is
the serialized JSON object with exactly the keys `output` (stdout when the
exit code is 0, stderr otherwise) and `metadata = {exit_code,
duration_seconds}`, where `duration_seconds` is the duration rounded to
one decimal place (a multiple of 1/10 within 1/20 of the true value). -/
theorem exec_success_output_format (params : ExecParams) (callId : String)
    (st : SandboxType) (decision : ReviewDecision) (policy : AskForApproval)
    (sandboxDecision : ReviewDecision) (retry : Except ExecError ExecToolCallOutput)
    (diff : Option String) (out : ExecToolCallOutput) :
    (handleContainerExecWithParams params callId false (.autoApprove st) decision
        policy sandboxDecision (.ok out) retry diff).output
      = ⟨.execJson (formatExecOutput (if out.exitCode == 0 then out.stdout else out.stderr)
          out.exitCode out.duration), some (out.exitCode == 0)⟩ ∧
    (formatExecOutput (if out.exitCode == 0 then out.stdout else out.stderr)
        out.exitCode out.duration).toJson
      = Json.obj [("output", Json.str (if out.exitCode == 0 then out.stdout else out.stderr)),
                  ("metadata", Json.obj [("exit_code", Json.int out.exitCode),
                      ("duration_seconds", Json.num (roundTenth out.duration))])] ∧
    (∃ k : ℤ, roundTenth out.duration = (k : ℚ) / 10) ∧
    |roundTenth out.duration - out.duration| ≤ 1 / 20 := by
  refine ⟨rfl, rfl, ⟨round (out.duration * 10), rfl⟩, ?_⟩
  have h := abs_sub_round (out.duration * 10)
  have heq : roundTenth out.duration - out.duration
      = ((round (out.duration * 10) : ℤ) - out.duration * 10) / 10 := by
    unfold roundTenth; ring
  rw [heq, abs_div]
  rw [show |(10 : ℚ)| = 10 by norm_num]
  have h2 : |(round (out.duration * 10) : ℚ) - out.duration * 10| ≤ 1 / 2 := by
    rwa [abs_sub_comm] at h
  linarith

/-- C3: a `Reject` safety outcome, or a `Denied`/`Abort` gate decision,
returns the corresponding rejection `FunctionCallOutput` with
`success=None`, emits no `ExecCommandBegin`/`PatchApplyBegin` event, and
never invokes the sandbox executor. -/
theorem exec_rejection_no_begin_no_exec (params : ExecParams) (callId : String)
    (isApplyPatch : Bool) (decision : ReviewDecision) (policy : AskForApproval)
    (sandboxDecision : ReviewDecision) (execResult retry : Except ExecError ExecToolCallOutput)
    (diff : Option String) (reason : String) :
    handleContainerExecWithParams params callId isApplyPatch (.reject reason) decision
        policy sandboxDecision execResult retry diff
      = ⟨⟨.plain ("exec command rejected: " ++ reason), none⟩, [], [], [], false⟩ ∧
    handleContainerExecWithParams params callId isApplyPatch .askUser .denied
        policy sandboxDecision execResult retry diff
      = ⟨⟨.plain "exec command rejected by user", none⟩,
          [.execApprovalRequest callId params.command params.justification], [], [], true⟩ ∧
    handleContainerExecWithParams params callId isApplyPatch .askUser .abort
        policy sandboxDecision execResult retry diff
      = ⟨⟨.plain "exec command rejected by user", none⟩,
          [.execApprovalRequest callId params.command params.justification], [], [], true⟩ ∧
    (handleContainerExecWithParams params callId isApplyPatch (.reject reason) decision
        policy sandboxDecision execResult retry diff).events.filter EventMsg.isBegin = [] ∧
    (handleContainerExecWithParams params callId isApplyPatch .askUser .denied
        policy sandboxDecision execResult retry diff).events.filter EventMsg.isBegin = [] ∧
    (handleContainerExecWithParams params callId isApplyPatch .askUser .abort
        policy sandboxDecision execResult retry diff).events.filter EventMsg.isBegin = [] ∧
    (handleContainerExecWithParams params callId isApplyPatch (.reject reason) decision
        policy sandboxDecision execResult retry diff).execInvocations = [] ∧
    (handleContainerExecWithParams params callId isApplyPatch .askUser .denied
        policy sandboxDecision execResult retry diff).execInvocations = [] ∧
    (handleContainerExecWithParams params callId isApplyPatch .askUser .abort
        policy sandboxDecision execResult retry diff).execInvocations = [] :=
  ⟨rfl, rfl, rfl, rfl, rfl, rfl, rfl, rfl, rfl⟩

/-- C2: when the sandbox executor fails with a sandbox error, under
`Never`/`OnRequest` the call returns the sandbox-failure message with
`success=false` and asks for no approval; otherwise a `Timeout` returns
the timeout message with `success=false` without asking; otherwise the
user is asked, and `Approved`/`ApprovedForSession` adds the command to the
approved set and re-runs with sandbox `None`, while `Denied`/`Abort`
returns the user-rejection output with `success=None`. -/
theorem handleSandboxError_policy_cases (params : ExecParams) (callId : String)
    (isApplyPatch : Bool) (e : SandboxErr) (st : SandboxType) (d : ReviewDecision)
    (retry : Except ExecError ExecToolCallOutput) (diff : Option String) (m : String) :
    handleSandboxError .never params callId isApplyPatch e st d retry diff
      = ⟨⟨.plain ("failed in sandbox " ++ st.debugRepr ++ " with execution error: "
            ++ e.display), some false⟩, [], [], [], false⟩ ∧
    handleSandboxError .onRequest params callId isApplyPatch e st d retry diff
      = ⟨⟨.plain ("failed in sandbox " ++ st.debugRepr ++ " with execution error: "
            ++ e.display), some false⟩, [], [], [], false⟩ ∧
    handleSandboxError .unlessTrusted params callId isApplyPatch .timeout st d retry diff
      = ⟨⟨.plain ("command timed out after " ++ toString params.timeoutDurationMillis
            ++ " milliseconds"), some false⟩, [], [], [], false⟩ ∧
    handleSandboxError .onFailure params callId isApplyPatch .timeout st d retry diff
      = ⟨⟨.plain ("command timed out after " ++ toString params.timeoutDurationMillis
            ++ " milliseconds"), some false⟩, [], [], [], false⟩ ∧
    handleSandboxError .unlessTrusted params callId isApplyPatch (.denied m) st .denied retry diff
      = ⟨⟨.plain "exec command rejected by user", none⟩,
          [.backgroundEvent ("Execution failed: " ++ m),
           .execApprovalRequest callId params.command
             (some "command failed; retry without sandbox?")], [], [], true⟩ ∧
    handleSandboxError .unlessTrusted params callId isApplyPatch (.denied m) st .abort retry diff
      = ⟨⟨.plain "exec command rejected by user", none⟩,
          [.backgroundEvent ("Execution failed: " ++ m),
           .execApprovalRequest callId params.command
             (some "command failed; retry without sandbox?")], [], [], true⟩ ∧
    handleSandboxError .unlessTrusted params callId isApplyPatch (.other m) st .denied retry diff
      = ⟨⟨.plain "exec command rejected by user", none⟩,
          [.backgroundEvent ("Execution failed: " ++ m),
           .execApprovalRequest callId params.command
             (some "command failed; retry without sandbox?")], [], [], true⟩ ∧
    handleSandboxError .unlessTrusted params callId isApplyPatch (.other m) st .abort retry diff
      = ⟨⟨.plain "exec command rejected by user", none⟩,
          [.backgroundEvent ("Execution failed: " ++ m),
           .execApprovalRequest callId params.command
             (some "command failed; retry without sandbox?")], [], [], true⟩ ∧
    handleSandboxError .onFailure params callId isApplyPatch (.denied m) st .denied retry diff
      = ⟨⟨.plain "exec command rejected by user", none⟩,
          [.backgroundEvent ("Execution failed: " ++ m),
           .execApprovalRequest callId params.command
             (some "command failed; retry without sandbox?")], [], [], true⟩ ∧
    handleSandboxError .onFailure params callId isApplyPatch (.denied m) st .abort retry diff
      = ⟨⟨.plain "exec command rejected by user", none⟩,
          [.backgroundEvent ("Execution failed: " ++ m),
           .execApprovalRequest callId params.command
             (some "command failed; retry without sandbox?")], [], [], true⟩ ∧
    handleSandboxError .onFailure params callId isApplyPatch (.other m) st .denied retry diff
      = ⟨⟨.plain "exec command rejected by user", none⟩,
          [.backgroundEvent ("Execution failed: " ++ m),
           .execApprovalRequest callId params.command
             (some "command failed; retry without sandbox?")], [], [], true⟩ ∧
    handleSandboxError .onFailure params callId isApplyPatch (.other m) st .abort retry diff
      = ⟨⟨.plain "exec command rejected by user", none⟩,
          [.backgroundEvent ("Execution failed: " ++ m),
           .execApprovalRequest callId params.command
             (some "command failed; retry without sandbox?")], [], [], true⟩ ∧
    ((handleSandboxError .unlessTrusted params callId isApplyPatch (.denied m) st .approved
        retry diff).addedApprovedCommands = [params.command] ∧
     (handleSandboxError .unlessTrusted params callId isApplyPatch (.denied m) st .approved
        retry diff).execInvocations = [SandboxType.none] ∧
     (handleSandboxError .unlessTrusted params callId isApplyPatch (.denied m) st .approved
        retry diff).askedUser = true) ∧
    ((handleSandboxError .unlessTrusted params callId isApplyPatch (.denied m) st
        .approvedForSession retry diff).addedApprovedCommands = [params.command] ∧
     (handleSandboxError .unlessTrusted params callId isApplyPatch (.denied m) st
        .approvedForSession retry diff).execInvocations = [SandboxType.none] ∧
     (handleSandboxError .unlessTrusted params callId isApplyPatch (.denied m) st
        .approvedForSession retry diff).askedUser = true) ∧
    ((handleSandboxError .unlessTrusted params callId isApplyPatch (.other m) st .approved
        retry diff).addedApprovedCommands = [params.command] ∧
     (handleSandboxError .unlessTrusted params callId isApplyPatch (.other m) st .approved
        retry diff).execInvocations = [SandboxType.none] ∧
     (handleSandboxError .unlessTrusted params callId isApplyPatch (.other m) st .approved
        retry diff).askedUser = true) ∧
    ((handleSandboxError .unlessTrusted params callId isApplyPatch (.other m) st
        .approvedForSession retry diff).addedApprovedCommands = [params.command] ∧
     (handleSandboxError .unlessTrusted params callId isApplyPatch (.other m) st
        .approvedForSession retry diff).execInvocations = [SandboxType.none] ∧
     (handleSandboxError .unlessTrusted params callId isApplyPatch (.other m) st
        .approvedForSession retry diff).askedUser = true) ∧
    ((handleSandboxError .onFailure params callId isApplyPatch (.denied m) st .approved
        retry diff).addedApprovedCommands = [params.command] ∧
     (handleSandboxError .onFailure params callId isApplyPatch (.denied m) st .approved
        retry diff).execInvocations = [SandboxType.none] ∧
     (handleSandboxError .onFailure params callId isApplyPatch (.denied m) st .approved
        retry diff).askedUser = true) ∧
    ((handleSandboxError .onFailure params callId isApplyPatch (.denied m) st
        .approvedForSession retry diff).addedApprovedCommands = [params.command] ∧
     (handleSandboxError .onFailure params callId isApplyPatch (.denied m) st
        .approvedForSession retry diff).execInvocations = [SandboxType.none] ∧
     (handleSandboxError .onFailure params callId isApplyPatch (.denied m) st
        .approvedForSession retry diff).askedUser = true) ∧
    ((handleSandboxError .onFailure params callId isApplyPatch (.other m) st .approved
        retry diff).addedApprovedCommands = [params.command] ∧
     (handleSandboxError .onFailure params callId isApplyPatch (.other m) st .approved
        retry diff).execInvocations = [SandboxType.none] ∧
     (handleSandboxError .onFailure params callId isApplyPatch (.other m) st .approved
        retry diff).askedUser = true) ∧
    ((handleSandboxError .onFailure params callId isApplyPatch (.other m) st
        .approvedForSession retry diff).addedApprovedCommands = [params.command] ∧
     (handleSandboxError .onFailure params callId isApplyPatch (.other m) st
        .approvedForSession retry diff).execInvocations = [SandboxType.none] ∧
     (handleSandboxError .onFailure params callId isApplyPatch (.other m) st
        .approvedForSession retry diff).askedUser = true) := by
  and_intros <;> rfl

theorem mem_completedCallIds (input : List ResponseItem) (c : String) :
    c ∈ completedCallIds input ↔
      ((∃ out, ResponseItem.functionCallOutput c out ∈ input) ∨
       (∃ i st a, ResponseItem.localShellCall i (some c) st a ∈ input)) := by
  unfold completedCallIds
  rw [List.mem_filterMap]
  constructor
  · rintro ⟨ri, hmem, hf⟩
    cases ri with
    | message role content => exact Option.noConfusion hf
    | reasoning i su co en => exact Option.noConfusion hf
    | functionCall n args cid => exact Option.noConfusion hf
    | localShellCall i cid stt a =>
      cases cid with
      | none => exact Option.noConfusion hf
      | some x =>
        obtain rfl : x = c := Option.some.inj hf
        exact Or.inr ⟨i, stt, a, hmem⟩
    | functionCallOutput cid out =>
      obtain rfl : cid = c := Option.some.inj hf
      exact Or.inl ⟨out, hmem⟩
    | other => exact Option.noConfusion hf
  · rintro (⟨out, hmem⟩ | ⟨i, stt, a, hmem⟩)
    · exact ⟨_, hmem, rfl⟩
    · exact ⟨_, hmem, rfl⟩

theorem mem_pendingCallIds (input : List ResponseItem) (c : String) :
    c ∈ pendingCallIds input ↔
      ((∃ n args, ResponseItem.functionCall n args c ∈ input) ∨
       (∃ i st a, ResponseItem.localShellCall i (some c) st a ∈ input)) := by
  unfold pendingCallIds
  rw [List.mem_filterMap]
  constructor
  · rintro ⟨ri, hmem, hf⟩
    cases ri with
    | message role content => exact Option.noConfusion hf
    | reasoning i su co en => exact Option.noConfusion hf
    | functionCall n args cid =>
      obtain rfl : cid = c := Option.some.inj hf
      exact Or.inl ⟨n, args, hmem⟩
    | localShellCall i cid stt a =>
      cases cid with
      | none => exact Option.noConfusion hf
      | some x =>
        obtain rfl : x = c := Option.some.inj hf
        exact Or.inr ⟨i, stt, a, hmem⟩
    | functionCallOutput cid out => exact Option.noConfusion hf
    | other => exact Option.noConfusion hf
  · rintro (⟨n, args, hmem⟩ | ⟨i, stt, a, hmem⟩)
    · exact ⟨_, hmem, rfl⟩
    · exact ⟨_, hmem, rfl⟩

/-- C1: before each turn attempt the completed call-id set is exactly the
`FunctionCallOutput` call ids plus the `LocalShellCall` call ids present
in the prompt input; every `FunctionCall`/`LocalShellCall` call id not in
that set gets a synthesized `FunctionCallOutput{content:"aborted",
success:false}` prepended to the start of the input, and when no call id
is missing the input is unchanged. -/
theorem tryRunTurn_missing_calls_spec (input : List ResponseItem) :
    (∀ c, c ∈ completedCallIds input ↔
      ((∃ out, ResponseItem.functionCallOutput c out ∈ input) ∨
       (∃ i st a, ResponseItem.localShellCall i (some c) st a ∈ input))) ∧
    (∀ c, c ∈ pendingCallIds input ↔
      ((∃ n args, ResponseItem.functionCall n args c ∈ input) ∨
       (∃ i st a, ResponseItem.localShellCall i (some c) st a ∈ input))) ∧
    adjustTurnInput input = missingCalls input ++ input ∧
    (∀ ri, ri ∈ missingCalls input →
      ∃ c, c ∈ pendingCallIds input ∧ c ∉ completedCallIds input ∧ ri = abortedOutput c) ∧
    (∀ c, c ∈ pendingCallIds input → c ∉ completedCallIds input →
      abortedOutput c ∈ missingCalls input) ∧
    ((∀ c, c ∈ pendingCallIds input → c ∈ completedCallIds input) →
      adjustTurnInput input = input) := by
  refine ⟨mem_completedCallIds input, mem_pendingCallIds input, ?_, ?_, ?_, ?_⟩
  · by_cases h : missingCalls input = []
    · simp [adjustTurnInput, h]
    · simp [adjustTurnInput, h]
  · intro ri hri
    unfold missingCalls at hri
    obtain ⟨cid, hcid, rfl⟩ := List.mem_map.mp hri
    obtain ⟨hpend, hcond⟩ := List.mem_filter.mp hcid
    refine ⟨cid, hpend, ?_, rfl⟩
    intro hc
    simp [List.elem_iff, hc] at hcond
  · intro c hpend hnotc
    unfold missingCalls
    refine List.mem_map.mpr ⟨c, List.mem_filter.mpr ⟨hpend, ?_⟩, rfl⟩
    simp [List.elem_iff, hnotc]
  · intro hall
    have hm : missingCalls input = [] := by
      unfold missingCalls
      rw [List.map_eq_nil_iff, List.filter_eq_nil_iff]
      intro a ha
      simp [List.elem_iff, hall a ha]
    simp [adjustTurnInput, hm]

theorem tryRunTurn_missing_calls_spec_witness :
    abortedOutput "c1" ∈ adjustTurnInput [ResponseItem.functionCall "shell" "args" "c1"] := by
  have h := tryRunTurn_missing_calls_spec [ResponseItem.functionCall "shell" "args" "c1"]
  have hm : abortedOutput "c1"
      ∈ missingCalls [ResponseItem.functionCall "shell" "args" "c1"] :=
    h.2.2.2.2.1 "c1" (by decide) (by decide)
  rw [h.2.2.1]
  exact List.mem_append_left _ hm

theorem lookup_cons_pair (k : String) (v : McpServerConfig)
    (es : List (String × McpServerConfig)) (a : String) :
    ((k, v) :: es).lookup a = if a = k then some v else es.lookup a := by
  by_cases h : a = k
  · have hb : (a == k) = true := beq_iff_eq.mpr h
    simp [List.lookup, hb, h]
  · have hb : (a == k) = false := beq_eq_false_iff_ne.mpr h
    simp [List.lookup, hb, h]

theorem lookup_append_pair (l1 l2 : List (String × McpServerConfig)) (a : String) :
    (l1 ++ l2).lookup a = (l1.lookup a).or (l2.lookup a) := by
  induction l1 with
  | nil => simp [List.lookup]
  | cons e t ih =>
    obtain ⟨k, v⟩ := e
    by_cases h : a = k
    · have hb : (a == k) = true := beq_iff_eq.mpr h
      simp [List.lookup, hb]
    · have hb : (a == k) = false := beq_eq_false_iff_ne.mpr h
      simpa [List.lookup, hb] using ih

theorem lookup_orInsert (m : List (String × McpServerConfig)) (k a : String)
    (v : McpServerConfig) :
    (orInsert m k v).lookup a = (m.lookup a).or (if a = k then some v else none) := by
  unfold orInsert
  by_cases hk : (m.lookup k).isSome
  · rw [if_pos hk]
    by_cases hak : a = k
    · subst hak
      obtain ⟨w, hw⟩ := Option.isSome_iff_exists.mp hk
      rw [hw]
      rfl
    · rw [if_neg hak]
      exact Option.or_none.symm
  · rw [if_neg hk, lookup_append_pair]
    congr 1
    rw [lookup_cons_pair]
    by_cases hak : a = k <;> simp [hak, List.lookup]

theorem lookup_insertPluginServers (entries : List (String × McpServerConfig))
    (m : List (String × McpServerConfig)) (a : String) :
    (insertPluginServers m entries).lookup a = (m.lookup a).or (entries.lookup a) := by
  induction entries generalizing m with
  | nil => exact Option.or_none.symm
  | cons e t ih =>
    obtain ⟨k, v⟩ := e
    show (insertPluginServers (orInsert m k v) t).lookup a = _
    rw [ih, lookup_orInsert, Option.or_assoc, lookup_cons_pair]
    congr 1
    by_cases hak : a = k <;> simp [hak, Option.or]

theorem lookup_effectiveFold (ps : List LoadedPlugin)
    (m : List (String × McpServerConfig)) (a : String) :
    ((ps.foldl (fun acc p => insertPluginServers acc p.mcpServers) m).lookup a)
      = (m.lookup a).or (ps.findSome? (fun p => p.mcpServers.lookup a)) := by
  induction ps generalizing m with
  | nil => exact Option.or_none.symm
  | cons p t ih =>
    show ((t.foldl _ (insertPluginServers m p.mcpServers)).lookup a) = _
    rw [ih, lookup_insertPluginServers, Option.or_assoc]
    congr 1
    cases h : p.mcpServers.lookup a <;> simp [List.findSome?_cons, h, Option.or]

theorem mem_dedupConsec {α : Type} [DecidableEq α] (l : List α) (a : α) :
    a ∈ dedupConsec l ↔ a ∈ l := by
  induction l with
  | nil => simp [dedupConsec]
  | cons x rest ih =>
    cases rest with
    | nil => simp [dedupConsec]
    | cons y t =>
      by_cases hxy : x = y
      · subst hxy
        rw [show dedupConsec (x :: x :: t) = dedupConsec (x :: t) from by
          simp [dedupConsec]]
        rw [ih]
        simp [List.mem_cons]
      · rw [show dedupConsec (x :: y :: t) = x :: dedupConsec (y :: t) from by
          simp [dedupConsec, hxy]]
        simp [List.mem_cons, ih]

theorem sorted_lt_dedupConsec (l : List String)
    (h : l.Sorted (fun a b => a ≤ b)) : (dedupConsec l).Sorted (fun a b => a < b) := by
  induction l with
  | nil => simp [dedupConsec]
  | cons x rest ih =>
    cases rest with
    | nil => simp [dedupConsec]
    | cons y t =>
      rw [List.sorted_cons] at h
      by_cases hxy : x = y
      · rw [show dedupConsec (x :: y :: t) = dedupConsec (y :: t) from by
          simp [dedupConsec, hxy]]
        exact ih h.2
      · rw [show dedupConsec (x :: y :: t) = x :: dedupConsec (y :: t) from by
          simp [dedupConsec, hxy]]
        rw [List.sorted_cons]
        refine ⟨?_, ih h.2⟩
        intro b hb
        have hb2 : b ∈ y :: t := (mem_dedupConsec _ _).mp hb
        have hxyle : x ≤ y := h.1 y (List.mem_cons_self _ _)
        have hxylt : x < y := lt_of_le_of_ne hxyle hxy
        rcases List.mem_cons.mp hb2 with rfl | hbt
        · exact hxylt
        · exact lt_of_lt_of_le hxylt (List.rel_of_sorted_cons h.2 b hbt)

/-- C9: only active plugins contribute.  The effective skill roots are a
sorted, duplicate-free list whose members are exactly the active plugins'
skill roots, and looking up a server name in the effective tool-server map
yields the configuration of the first active plugin (in load order) that
defines that name. -/
theorem plugin_effective_contributions (o : PluginLoadOutcome) :
    (effectiveSkillRoots o).Sorted (· ≤ ·) ∧
    (effectiveSkillRoots o).Nodup ∧
    (∀ r, r ∈ effectiveSkillRoots o ↔
      ∃ p, p ∈ o.plugins ∧ p.isActive = true ∧ r ∈ p.skillRoots) ∧
    (∀ name, (effectiveMcpServers o).lookup name
      = (o.plugins.filter (fun p => p.isActive)).findSome?
          (fun p => p.mcpServers.lookup name)) := by
  have hsortedLt : (effectiveSkillRoots o).Sorted (fun a b => a < b) := by
    unfold effectiveSkillRoots
    exact sorted_lt_dedupConsec
      (List.insertionSort (fun a b => a ≤ b)
        ((o.plugins.filter (fun p => p.isActive)).flatMap (fun p => p.skillRoots)))
      (List.sorted_insertionSort _ _)
  refine ⟨hsortedLt.imp le_of_lt, hsortedLt.imp ne_of_lt, ?_, ?_⟩
  · intro r
    unfold effectiveSkillRoots
    rw [mem_dedupConsec, (List.perm_insertionSort _ _).mem_iff, List.mem_flatMap]
    constructor
    · rintro ⟨p, hp, hr⟩
      obtain ⟨hmem, hact⟩ := List.mem_filter.mp hp
      exact ⟨p, hmem, hact, hr⟩
    · rintro ⟨p, hmem, hact, hr⟩
      exact ⟨p, List.mem_filter.mpr ⟨hmem, hact⟩, hr⟩
  · intro name
    unfold effectiveMcpServers
    rw [lookup_effectiveFold]
    rfl

theorem plugin_effective_contributions_witness :
    "s1" ∈ effectiveSkillRoots
      ⟨[⟨"a", some "a", "/a", true, ["s2", "s1"], [("srv", ⟨"cfgA"⟩)], none⟩,
        ⟨"b", some "b", "/b", true, ["s1"], [("srv", ⟨"cfgB"⟩)], none⟩]⟩ ∧
    (effectiveMcpServers
      ⟨[⟨"a", some "a", "/a", true, ["s2", "s1"], [("srv", ⟨"cfgA"⟩)], none⟩,
        ⟨"b", some "b", "/b", true, ["s1"], [("srv", ⟨"cfgB"⟩)], none⟩]⟩).lookup "srv"
      = some ⟨"cfgA"⟩ := by
  have h := plugin_effective_contributions
    ⟨[⟨"a", some "a", "/a", true, ["s2", "s1"], [("srv", ⟨"cfgA"⟩)], none⟩,
      ⟨"b", some "b", "/b", true, ["s1"], [("srv", ⟨"cfgB"⟩)], none⟩]⟩
  constructor
  · exact (h.2.2.1 "s1").mpr
      ⟨⟨"a", some "a", "/a", true, ["s2", "s1"], [("srv", ⟨"cfgA"⟩)], none⟩,
        by decide, by decide, by decide⟩
  · rw [h.2.2.2 "srv"]
    decide
